import Mathlib

/-!
Verification development for the DeFiLlama chains scraper (`main.py`).

The source is a single Python file.  The parts the properties below are
about are embedded shallowly:

* `extract_data_from_row` (source lines 5-26): per-row field extraction
  with visibility checks, whitespace trimming and the `"N/A"` sentinel;
  the `except` branch that returns `None` is modelled by reads that can
  fail (`SubElem.evicted`).
* the scroll loop of `scrape_data` (source lines 29-77): per-iteration
  row admission into `scraped_data[date]["data_list"]` guarded by
  `unique_names`, one `mouse.wheel` scroll per iteration, and the
  end-of-page check `current_scroll_position + window_height >=
  page_height` against `page_height` and `window_height` captured once
  before the loop, with the `attempt` countdown and `break`.
* the persistence step of `main` (source lines 89-121): load the
  existing JSON file (missing or corrupt files become the empty list, a
  non-list value becomes a one-element list), append the new batch and
  write the whole list back.
* `load_config` (source lines 124-153): defaults, `config =
  default_config` (an alias, not a copy), `config.update(loaded_config)`
  and the nested `config["proxy_settings"].update(...)`.

The browser environment is abstracted as `PageEnv`: the streams of
values the page would deliver to `page.evaluate` and to row extraction
at each loop iteration.
-/

/-- An extracted table row, the dict `{"Name": ..., "Protocols": ..., "TVL": ...}`
built at source lines 19-23. -/
structure ExtractedRow where
  Name : String
  Protocols : String
  TVL : String
deriving DecidableEq, Repr

/-- One sub-element of a row, as probed by `extract_data_from_row`:
it can be absent from the DOM (then `is_visible()` is false), present with a
visibility flag and a text content, or evicted mid-read by the virtualized
renderer (then probing raises, which the source catches). -/
inductive SubElem where
  | absent
  | evicted
  | present (visible : Bool) (text : String)
deriving DecidableEq, Repr

/-- Python's `str.strip()` with no argument (source lines 9, 13, 17): remove
whitespace characters from both ends of the string. -/
def strip (s : String) : String :=
  String.mk (((s.data.dropWhile Char.isWhitespace).reverse.dropWhile Char.isWhitespace).reverse)

/-- One field read of the pattern
`await el.text_content() if await el.is_visible() else "N/A"` (source lines
8, 12, 16): an absent element is not visible and yields the sentinel, a
present element yields its text when visible and the sentinel otherwise, and
an evicted element raises. -/
def readField : SubElem → Except Unit String
  | SubElem.absent => Except.ok "N/A"
  | SubElem.evicted => Except.error ()
  | SubElem.present visible text => Except.ok (if visible then text else "N/A")

/-- Embedding of `extract_data_from_row` (source lines 5-26) on the three
sub-elements it probes (`div:nth-child(1) a`, `div:nth-child(2)`,
`div:nth-child(7)`).  Each successful read is stripped (`.strip()`, source
lines 9, 13, 17); if any probe raises, the `except` branch returns `None`
(here `none`). -/
def extract_data_from_row (name_element protocols_element tvl_element : SubElem) :
    Option ExtractedRow :=
  match readField name_element, readField protocols_element, readField tvl_element with
  | Except.ok n, Except.ok p, Except.ok t =>
      some { Name := strip n, Protocols := strip p, TVL := strip t }
  | _, _, _ => none

/-- The value stored under the date key: the dict `{"data_list": []}` built at
source line 45, whose single key `"data_list"` holds the ordered result list. -/
structure RunBatch where
  data_list : List ExtractedRow
deriving DecidableEq, Repr

/-- The mutable state of one `scrape_data` run (source lines 45-47 and the
loop): the dict `scraped_data`, the set `unique_names` (modelled as the list
of names added so far; only membership is used), the `attempt` counter and
whether the loop has executed `break`.  `scrolls` counts the
`page.mouse.wheel` calls issued by the loop (source line 64); it is
instrumentation for stating how many scroll steps the loop performs and
influences nothing. -/
structure RunState where
  scraped_data : List (String × RunBatch)
  unique_names : List String
  attempt : Int
  done : Bool
  scrolls : Nat
deriving DecidableEq, Repr

/-- `scraped_data[date]["data_list"].append(row)` (source line 62): append
`row` to the batch stored under key `date`. -/
def appendRow (d : List (String × RunBatch)) (date : String) (row : ExtractedRow) :
    List (String × RunBatch) :=
  d.map fun kv => if kv.1 = date then (kv.1, ⟨kv.2.data_list ++ [row]⟩) else kv

/-- Admission of one extraction result (source lines 57-62):
`if chain_data and chain_data["Name"] != "N/A": if chain_data["Name"] not in
unique_names: unique_names.add(...); ...append(chain_data)`. -/
def admitRow (date : String) (st : RunState) (chain_data : Option ExtractedRow) : RunState :=
  match chain_data with
  | none => st
  | some row =>
      if row.Name ≠ "N/A" then
        if row.Name ∈ st.unique_names then st
        else { st with
                unique_names := row.Name :: st.unique_names,
                scraped_data := appendRow st.scraped_data date row }
      else st

/-- What the live page delivers to the run, indexed by time: the value
`document.body.scrollHeight` would report, the value `window.innerHeight`
would report, the `window.scrollY` reading of loop iteration `i` (source line
66), and the extraction results for the chain rows rendered at iteration `i`
(the `for i in range(num_visible_rows)` body filtered by the
`a[href*='/chain/']` guard, source lines 53-57). -/
structure PageEnv where
  scrollHeight : Nat → Int
  innerHeight : Nat → Int
  scrollY : Nat → Int
  rows : Nat → List (Option ExtractedRow)

/-- One iteration of the `while True` loop (source lines 49-73): admit every
extraction result of the currently rendered chain rows, issue one
`page.mouse.wheel` scroll, read `window.scrollY`, and run the end-of-page
check against the fixed `page_height` and `window_height`; on
`attempt <= 0` the loop breaks (`done := true`), otherwise `attempt -= 1`.
A finished run is absorbing: once `done` the state no longer changes. -/
def loopIter (env : PageEnv) (date : String) (page_height window_height : Int)
    (i : Nat) (st : RunState) : RunState :=
  if st.done then st
  else
    let st1 := (env.rows i).foldl (admitRow date) st
    let st2 := { st1 with scrolls := st1.scrolls + 1 }
    if env.scrollY i + window_height ≥ page_height then
      if st2.attempt ≤ 0 then { st2 with done := true }
      else { st2 with attempt := st2.attempt - 1 }
    else st2

/-- The label built at source line 44: `"Scraping at" +
datetime.datetime.now().strftime("%Y-%m-%d %H:%M:%S")`.  Note the source
concatenates without a separating space. -/
def labelOf (ts : String) : String := "Scraping at" ++ ts

/-- The state set up before the loop (source lines 45-47):
`scraped_data = {date: {"data_list": []}}`, `unique_names = set()`,
`attempt = 3`. -/
def initState (ts : String) : RunState :=
  { scraped_data := [(labelOf ts, ⟨[]⟩)],
    unique_names := [],
    attempt := 3,
    done := false,
    scrolls := 0 }

/-- Embedding of `scrape_data` (source lines 29-77) run for `n` loop
iterations against the page environment `env`, with `ts` the run timestamp:
`page_height` and `window_height` are the time-0 readings of
`document.body.scrollHeight` and `window.innerHeight` (source lines 39-40,
evaluated once, before the loop). -/
def scrape_data (env : PageEnv) (ts : String) : Nat → RunState
  | 0 => initState ts
  | n + 1 =>
      loopIter env (labelOf ts) (env.scrollHeight 0) (env.innerHeight 0) n
        (scrape_data env ts n)

/-- The run's accumulated `data_list`: the concatenation of the batches of
`scraped_data` (which, for a real run, is the single batch under the date
key). -/
def dataList (st : RunState) : List ExtractedRow :=
  (st.scraped_data.map fun kv => kv.2.data_list).flatten

/-- A JSON value, as `json.load` / `json.dump` handle it. -/
inductive Json where
  | null
  | jbool (b : Bool)
  | jnum (n : Int)
  | jstr (s : String)
  | jarr (xs : List Json)
  | jobj (kvs : List (String × Json))

/-- What reading the existing output file can yield (source lines 96-110):
the file may be missing (`os.path.exists` false), unreadable or corrupt
(`json.JSONDecodeError` or any other read error), or hold a JSON value. -/
inductive FileRead where
  | missing
  | corrupt
  | ok (j : Json)

/-- The `all_results` prior state computed by `main` (source lines 95-110):
missing or corrupt files start a fresh list; a list is taken as is; any
other JSON value is coerced to a one-element list. -/
def main_load_existing : FileRead → List Json
  | FileRead.missing => []
  | FileRead.corrupt => []
  | FileRead.ok (Json.jarr xs) => xs
  | FileRead.ok j => [j]

/-- The list `main` writes back to the output file (source lines 112-116):
the prior state with the new scraped batch appended. -/
def main_all_results (existing : FileRead) (scraped_result : Json) : List Json :=
  main_load_existing existing ++ [scraped_result]

/-- `d.get(k)` on an insertion-ordered dict modelled as a key-value list. -/
def lookupKey (d : List (String × Json)) (k : String) : Option Json :=
  (d.find? fun kv => kv.1 = k).map fun kv => kv.2

/-- `d[k] = v` on an insertion-ordered dict: an existing key keeps its
position and gets the new value, a new key is appended. -/
def setKey (d : List (String × Json)) (k : String) (v : Json) : List (String × Json) :=
  if d.any fun kv => kv.1 = k then
    d.map fun kv => if kv.1 = k then (kv.1, v) else kv
  else d ++ [(k, v)]

/-- Python `base.update(upd)`: every key of `upd` is written into `base` in
order. -/
def dictUpdate (base upd : List (String × Json)) : List (String × Json) :=
  upd.foldl (fun b kv => setKey b kv.1 kv.2) base

/-- The `default_config` dict of `load_config` (source lines 126-134). -/
def default_config : List (String × Json) :=
  [("interval_minutes", Json.jnum 5),
   ("proxy_settings", Json.jobj
      [("enabled", Json.jbool false),
       ("server", Json.jstr ""),
       ("username", Json.jstr ""),
       ("password", Json.jstr "")])]

/-- Embedding of `load_config` (source lines 124-153) on the parsed content
of `config.json`: `none` covers the branches that end with the defaults (the
file is missing, unreadable, corrupt, or `config.update` raised), `some kvs`
a file whose content parses to a JSON object.  In the source
`config = default_config` aliases the default dict (line 136), so
`config.update(loaded_config)` (line 141) replaces the `"proxy_settings"`
value with the loaded object itself, and the nested
`config["proxy_settings"].update(loaded_config["proxy_settings"])` (line
143) then updates that loaded object with itself. -/
def load_config (loaded : Option (List (String × Json))) : List (String × Json) :=
  match loaded with
  | none => default_config
  | some kvs =>
      let config := dictUpdate default_config kvs
      match lookupKey kvs "proxy_settings" with
      | some (Json.jobj pkvs) =>
          match lookupKey config "proxy_settings" with
          | some (Json.jobj cur) =>
              setKey config "proxy_settings" (Json.jobj (dictUpdate cur pkvs))
          | _ => config
      | _ => config

/-- The run invariant maintained by the scrape loop: `scraped_data` is still
the one-key dict built at source line 45, the accumulated names are pairwise
distinct and never the sentinel, and every accumulated name has been recorded
in `unique_names`. -/
def RunInv (date : String) (st : RunState) : Prop :=
  ∃ ds : List ExtractedRow,
    st.scraped_data = [(date, ⟨ds⟩)] ∧
    (ds.map ExtractedRow.Name).Nodup ∧
    "N/A" ∉ ds.map ExtractedRow.Name ∧
    ∀ s ∈ ds.map ExtractedRow.Name, s ∈ st.unique_names

/-- A sample extracted row used by concrete instantiations below. -/
def rowA : ExtractedRow := { Name := "Ethereum", Protocols := "1374", TVL := "86" }

/-- A page whose bottom condition first holds at iteration 1 and keeps
holding (the rendered height never grows past the initial reading). -/
def envA : PageEnv :=
  { scrollHeight := fun _ => 1000
    innerHeight := fun _ => 100
    scrollY := fun i => if i = 0 then 0 else 900
    rows := fun _ => [] }

/-- A page that reads as at-bottom at iteration 0 and whose real document
height then grows by exactly one viewport (1000 to 1100 with a 100-pixel
window). -/
def envB : PageEnv :=
  { scrollHeight := fun t => if t = 0 then 1000 else 1100
    innerHeight := fun _ => 100
    scrollY := fun _ => 900
    rows := fun _ => [] }

/-- A page that reads as at-bottom at iteration 0 only: later scroll
positions are far from the captured threshold. -/
def envE : PageEnv :=
  { scrollHeight := fun _ => 1000
    innerHeight := fun _ => 100
    scrollY := fun i => if i = 0 then 900 else 0
    rows := fun _ => [] }

/-- A page delivering one chain row at iteration 0 and never reaching the
bottom threshold within the first iterations. -/
def envC : PageEnv :=
  { scrollHeight := fun _ => 1000
    innerHeight := fun _ => 100
    scrollY := fun i => 200 * i
    rows := fun i => if i = 0 then [some rowA] else [] }

/-- The same page as `envC` except that the height the document would report
after time 0 is different; the run only ever reads the time-0 value. -/
def envD : PageEnv :=
  { scrollHeight := fun t => if t = 0 then 1000 else 5000
    innerHeight := fun _ => 100
    scrollY := fun i => 200 * i
    rows := fun i => if i = 0 then [some rowA] else [] }

/-- A concrete mid-run state that has already admitted `rowA`. -/
def stW : RunState :=
  { scraped_data := [("d", ⟨[rowA]⟩)],
    unique_names := ["Ethereum"],
    attempt := 3,
    done := false,
    scrolls := 1 }

theorem admitRow_control (date : String) (st : RunState) (r : Option ExtractedRow) :
    (admitRow date st r).attempt = st.attempt ∧ (admitRow date st r).done = st.done ∧
      (admitRow date st r).scrolls = st.scrolls := by
  cases r with
  | none => exact ⟨rfl, rfl, rfl⟩
  | some row =>
      simp only [admitRow]
      split
      · split
        · exact ⟨rfl, rfl, rfl⟩
        · exact ⟨rfl, rfl, rfl⟩
      · exact ⟨rfl, rfl, rfl⟩

theorem foldl_admitRow_control (date : String) (rows : List (Option ExtractedRow)) :
    ∀ st : RunState,
      (rows.foldl (admitRow date) st).attempt = st.attempt ∧
        (rows.foldl (admitRow date) st).done = st.done ∧
        (rows.foldl (admitRow date) st).scrolls = st.scrolls := by
  induction rows with
  | nil => exact fun st => ⟨rfl, rfl, rfl⟩
  | cons r rows ih =>
      intro st
      obtain ⟨h1, h2, h3⟩ := ih (admitRow date st r)
      obtain ⟨g1, g2, g3⟩ := admitRow_control date st r
      exact ⟨h1.trans g1, h2.trans g2, h3.trans g3⟩

theorem loopIter_of_done (env : PageEnv) (date : String) (ph wh : Int) (i : Nat)
    (st : RunState) (h : st.done = true) :
    loopIter env date ph wh i st = st := by
  simp [loopIter, h]

theorem loopIter_no_bottom (env : PageEnv) (date : String) (ph wh : Int) (i : Nat)
    (st : RunState) (hd : st.done = false) (hc : ¬ env.scrollY i + wh ≥ ph) :
    (loopIter env date ph wh i st).done = false ∧
      (loopIter env date ph wh i st).attempt = st.attempt ∧
      (loopIter env date ph wh i st).scrolls = st.scrolls + 1 := by
  obtain ⟨h1, h2, h3⟩ := foldl_admitRow_control date (env.rows i) st
  refine ⟨?_, ?_, ?_⟩ <;> simp [loopIter, hd, hc, h1, h2, h3]

theorem loopIter_bottom_pos (env : PageEnv) (date : String) (ph wh : Int) (i : Nat)
    (st : RunState) (hd : st.done = false) (hc : env.scrollY i + wh ≥ ph)
    (ha : 0 < st.attempt) :
    (loopIter env date ph wh i st).done = false ∧
      (loopIter env date ph wh i st).attempt = st.attempt - 1 ∧
      (loopIter env date ph wh i st).scrolls = st.scrolls + 1 := by
  obtain ⟨h1, h2, h3⟩ := foldl_admitRow_control date (env.rows i) st
  have ha' : ¬ st.attempt ≤ 0 := by omega
  refine ⟨?_, ?_, ?_⟩ <;> simp [loopIter, hd, hc, h1, h2, h3, ha']

theorem loopIter_bottom_zero (env : PageEnv) (date : String) (ph wh : Int) (i : Nat)
    (st : RunState) (hd : st.done = false) (hc : env.scrollY i + wh ≥ ph)
    (ha : st.attempt ≤ 0) :
    (loopIter env date ph wh i st).done = true ∧
      (loopIter env date ph wh i st).attempt = st.attempt ∧
      (loopIter env date ph wh i st).scrolls = st.scrolls + 1 := by
  obtain ⟨h1, h2, h3⟩ := foldl_admitRow_control date (env.rows i) st
  refine ⟨?_, ?_, ?_⟩ <;> simp [loopIter, hd, hc, h1, h2, h3, ha]

theorem scrape_data_succ (env : PageEnv) (ts : String) (n : Nat) :
    scrape_data env ts (n + 1) =
      loopIter env (labelOf ts) (env.scrollHeight 0) (env.innerHeight 0) n
        (scrape_data env ts n) := rfl

theorem scrape_data_absorb (env : PageEnv) (ts : String) (n : Nat)
    (h : (scrape_data env ts n).done = true) :
    ∀ m, n ≤ m → scrape_data env ts m = scrape_data env ts n := by
  intro m hm
  induction m, hm using Nat.le_induction with
  | base => rfl
  | succ m hm ih =>
      rw [scrape_data_succ, ih, loopIter_of_done _ _ _ _ _ _ h]

theorem loopIter_data (env : PageEnv) (date : String) (ph wh : Int) (i : Nat)
    (st : RunState) (hd : st.done = false) :
    (loopIter env date ph wh i st).scraped_data
        = ((env.rows i).foldl (admitRow date) st).scraped_data ∧
      (loopIter env date ph wh i st).unique_names
        = ((env.rows i).foldl (admitRow date) st).unique_names := by
  obtain ⟨h1, h2, h3⟩ := foldl_admitRow_control date (env.rows i) st
  by_cases hc : env.scrollY i + wh ≥ ph
  · by_cases ha : st.attempt ≤ 0
    · refine ⟨?_, ?_⟩ <;> simp [loopIter, hd, hc, h1, ha]
    · refine ⟨?_, ?_⟩ <;> simp [loopIter, hd, hc, h1, ha]
  · refine ⟨?_, ?_⟩ <;> simp [loopIter, hd, hc]

theorem runInv_init (ts : String) : RunInv (labelOf ts) (initState ts) :=
  ⟨[], rfl, List.nodup_nil, List.not_mem_nil _, by simp⟩

theorem runInv_admitRow (date : String) (st : RunState) (r : Option ExtractedRow)
    (h : RunInv date st) : RunInv date (admitRow date st r) := by
  obtain ⟨ds, hsd, hnd, hna, hsub⟩ := h
  cases r with
  | none => exact ⟨ds, hsd, hnd, hna, hsub⟩
  | some row =>
      by_cases h1 : row.Name = "N/A"
      · have he : admitRow date st (some row) = st := by simp [admitRow, h1]
        rw [he]
        exact ⟨ds, hsd, hnd, hna, hsub⟩
      · by_cases h2 : row.Name ∈ st.unique_names
        · have he : admitRow date st (some row) = st := by simp [admitRow, h1, h2]
          rw [he]
          exact ⟨ds, hsd, hnd, hna, hsub⟩
        · have he : admitRow date st (some row)
              = { st with unique_names := row.Name :: st.unique_names,
                          scraped_data := appendRow st.scraped_data date row } := by
            simp [admitRow, h1, h2]
          rw [he]
          refine ⟨ds ++ [row], ?_, ?_, ?_, ?_⟩
          · show appendRow st.scraped_data date row = [(date, ⟨ds ++ [row]⟩)]
            rw [hsd]
            simp [appendRow]
          · rw [List.map_append]
            have hrow : row.Name ∉ ds.map ExtractedRow.Name := fun hm => h2 (hsub _ hm)
            simp [List.nodup_append, hnd, hrow]
          · rw [List.map_append]
            intro hmem
            rcases List.mem_append.mp hmem with hm | hm
            · exact hna hm
            · simp at hm
              exact h1 hm.symm
          · intro s hs
            rw [List.map_append] at hs
            rcases List.mem_append.mp hs with hm | hm
            · exact List.mem_cons_of_mem _ (hsub s hm)
            · simp at hm
              subst hm
              exact List.mem_cons_self _ _

theorem runInv_foldl (date : String) (rows : List (Option ExtractedRow)) :
    ∀ st : RunState, RunInv date st → RunInv date (rows.foldl (admitRow date) st) := by
  induction rows with
  | nil => exact fun st h => h
  | cons r rows ih => exact fun st h => ih (admitRow date st r) (runInv_admitRow date st r h)

theorem runInv_loopIter (env : PageEnv) (date : String) (ph wh : Int) (i : Nat)
    (st : RunState) (h : RunInv date st) :
    RunInv date (loopIter env date ph wh i st) := by
  cases hd : st.done with
  | true =>
      rw [loopIter_of_done _ _ _ _ _ _ hd]
      exact h
  | false =>
      obtain ⟨ds, hsd, hnd, hna, hsub⟩ := runInv_foldl date (env.rows i) st h
      obtain ⟨e1, e2⟩ := loopIter_data env date ph wh i st hd
      exact ⟨ds, e1.trans hsd, hnd, hna, fun s hs => e2 ▸ hsub s hs⟩

theorem runInv_scrape_data (env : PageEnv) (ts : String) :
    ∀ n, RunInv (labelOf ts) (scrape_data env ts n) := by
  intro n
  induction n with
  | zero => exact runInv_init ts
  | succ n ih => exact runInv_loopIter _ _ _ _ _ _ ih

theorem dataList_eq (st : RunState) (date : String) (ds : List ExtractedRow)
    (h : st.scraped_data = [(date, ⟨ds⟩)]) : dataList st = ds := by
  simp [dataList, h]

theorem admitRow_scraped_ext (date : String) (st : RunState) (r : Option ExtractedRow)
    (ds : List ExtractedRow) (h : st.scraped_data = [(date, ⟨ds⟩)]) :
    ∃ tl, (admitRow date st r).scraped_data = [(date, ⟨ds ++ tl⟩)] := by
  cases r with
  | none => exact ⟨[], by simp [admitRow, h]⟩
  | some row =>
      by_cases h1 : row.Name = "N/A"
      · exact ⟨[], by simp [admitRow, h1, h]⟩
      · by_cases h2 : row.Name ∈ st.unique_names
        · exact ⟨[], by simp [admitRow, h1, h2, h]⟩
        · exact ⟨[row], by simp [admitRow, h1, h2, appendRow, h]⟩

theorem foldl_admitRow_scraped_ext (date : String) (rows : List (Option ExtractedRow)) :
    ∀ (st : RunState) (ds : List ExtractedRow), st.scraped_data = [(date, ⟨ds⟩)] →
      ∃ tl, (rows.foldl (admitRow date) st).scraped_data = [(date, ⟨ds ++ tl⟩)] := by
  induction rows with
  | nil =>
      intro st ds h
      exact ⟨[], by simpa using h⟩
  | cons r rows ih =>
      intro st ds h
      obtain ⟨t1, h1⟩ := admitRow_scraped_ext date st r ds h
      obtain ⟨t2, h2⟩ := ih (admitRow date st r) (ds ++ t1) h1
      exact ⟨t1 ++ t2, by rw [List.foldl_cons, h2, List.append_assoc]⟩

theorem loopIter_scraped_ext (env : PageEnv) (date : String) (ph wh : Int) (i : Nat)
    (st : RunState) (ds : List ExtractedRow) (h : st.scraped_data = [(date, ⟨ds⟩)]) :
    ∃ tl, (loopIter env date ph wh i st).scraped_data = [(date, ⟨ds ++ tl⟩)] := by
  cases hd : st.done with
  | true =>
      rw [loopIter_of_done _ _ _ _ _ _ hd]
      exact ⟨[], by simpa using h⟩
  | false =>
      obtain ⟨tl, h1⟩ := foldl_admitRow_scraped_ext date (env.rows i) st ds h
      obtain ⟨e1, -⟩ := loopIter_data env date ph wh i st hd
      exact ⟨tl, e1.trans h1⟩

theorem scrape_data_step_ext (env : PageEnv) (ts : String) (k : Nat) :
    ∃ tl, dataList (scrape_data env ts (k + 1)) = dataList (scrape_data env ts k) ++ tl := by
  obtain ⟨ds, hsd, -, -, -⟩ := runInv_scrape_data env ts k
  obtain ⟨tl, h⟩ := loopIter_scraped_ext env (labelOf ts) (env.scrollHeight 0)
    (env.innerHeight 0) k (scrape_data env ts k) ds hsd
  refine ⟨tl, ?_⟩
  rw [scrape_data_succ, dataList_eq _ _ _ h, dataList_eq _ _ _ hsd]

theorem scrape_data_ext (env : PageEnv) (ts : String) :
    ∀ n m, n ≤ m →
      ∃ tl, dataList (scrape_data env ts m) = dataList (scrape_data env ts n) ++ tl := by
  intro n m hm
  induction m, hm using Nat.le_induction with
  | base => exact ⟨[], by simp⟩
  | succ m hm ih =>
      obtain ⟨t1, h1⟩ := ih
      obtain ⟨t2, h2⟩ := scrape_data_step_ext env ts m
      exact ⟨t1 ++ t2, by rw [h2, h1, List.append_assoc]⟩

theorem loopIter_attempt_le (env : PageEnv) (date : String) (ph wh : Int) (i : Nat)
    (st : RunState) : (loopIter env date ph wh i st).attempt ≤ st.attempt := by
  cases hd : st.done with
  | true => rw [loopIter_of_done _ _ _ _ _ _ hd]
  | false =>
      by_cases hc : env.scrollY i + wh ≥ ph
      · by_cases ha : st.attempt ≤ 0
        · obtain ⟨-, e, -⟩ := loopIter_bottom_zero env date ph wh i st hd hc ha
          rw [e]
        · obtain ⟨-, e, -⟩ := loopIter_bottom_pos env date ph wh i st hd hc (by omega)
          rw [e]
          omega
      · obtain ⟨-, e, -⟩ := loopIter_no_bottom env date ph wh i st hd hc
        rw [e]

/-- C1: over any run (any page environment, timestamp and number of loop
iterations), the accumulated `data_list` holds no two entries with equal
`Name` and no entry named with the sentinel `"N/A"`; and offering one more
extracted row to the admission step appends it to `data_list` exactly when
its `Name` is not `"N/A"` and is not already in `unique_names`. -/
theorem c1_dedup_invariant (env : PageEnv) (ts : String) (n : Nat) :
    (((dataList (scrape_data env ts n)).map ExtractedRow.Name).Nodup
      ∧ "N/A" ∉ (dataList (scrape_data env ts n)).map ExtractedRow.Name)
    ∧ ∀ row : ExtractedRow,
        (dataList (admitRow (labelOf ts) (scrape_data env ts n) (some row))
            = dataList (scrape_data env ts n) ++ [row]
          ↔ row.Name ≠ "N/A" ∧ row.Name ∉ (scrape_data env ts n).unique_names) := by
  obtain ⟨ds, hsd, hnd, hna, hsub⟩ := runInv_scrape_data env ts n
  have hds : dataList (scrape_data env ts n) = ds := dataList_eq _ _ _ hsd
  refine ⟨⟨by rw [hds]; exact hnd, by rw [hds]; exact hna⟩, ?_⟩
  intro row
  by_cases h1 : row.Name = "N/A"
  · have he : admitRow (labelOf ts) (scrape_data env ts n) (some row)
        = scrape_data env ts n := by simp [admitRow, h1]
    constructor
    · intro happ
      rw [he] at happ
      have := congrArg List.length happ
      simp [List.length_append] at this
    · rintro ⟨hn, -⟩
      exact absurd h1 hn
  · by_cases h2 : row.Name ∈ (scrape_data env ts n).unique_names
    · have he : admitRow (labelOf ts) (scrape_data env ts n) (some row)
          = scrape_data env ts n := by simp [admitRow, h1, h2]
      constructor
      · intro happ
        rw [he] at happ
        have := congrArg List.length happ
        simp [List.length_append] at this
      · rintro ⟨-, hnm⟩
        exact absurd h2 hnm
    · have he : admitRow (labelOf ts) (scrape_data env ts n) (some row)
          = { scrape_data env ts n with
              unique_names := row.Name :: (scrape_data env ts n).unique_names,
              scraped_data :=
                appendRow (scrape_data env ts n).scraped_data (labelOf ts) row } := by
        simp [admitRow, h1, h2]
      constructor
      · intro _
        exact ⟨h1, h2⟩
      · intro _
        rw [he]
        have hap : appendRow (scrape_data env ts n).scraped_data (labelOf ts) row
            = [(labelOf ts, ⟨ds ++ [row]⟩)] := by
          rw [hsd]
          simp [appendRow]
        rw [hds]
        exact dataList_eq _ (labelOf ts) (ds ++ [row]) hap

/-- C4: a duplicate offer (a row whose `Name` is already in `unique_names`)
leaves the run state, hence the result list and every entry position, exactly
unchanged; and running more loop iterations only ever extends `data_list` on
the right, so the position of each admitted entry is fixed by its first
admitted occurrence. -/
theorem c4_first_seen_order :
    (∀ (date : String) (st : RunState) (row : ExtractedRow),
        row.Name ∈ st.unique_names → admitRow date st (some row) = st)
    ∧ ∀ (env : PageEnv) (ts : String) (n m : Nat), n ≤ m →
        ∃ tl, dataList (scrape_data env ts m) = dataList (scrape_data env ts n) ++ tl := by
  constructor
  · intro date st row h2
    by_cases h1 : row.Name = "N/A"
    · simp [admitRow, h1]
    · simp [admitRow, h1, h2]
  · exact fun env ts n m hm => scrape_data_ext env ts n m hm

/-- C4 witness: a duplicate offer of `rowA` to a state that has already seen
`"Ethereum"` is a no-op, and the `data_list` after 3 iterations of a concrete
run extends the one after 1 iteration. -/
theorem c4_first_seen_order_witness :
    admitRow "d" stW (some rowA) = stW
    ∧ ∃ tl, dataList (scrape_data envC "2025" 3) = dataList (scrape_data envC "2025" 1) ++ tl :=
  ⟨c4_first_seen_order.1 "d" stW rowA (by decide),
   c4_first_seen_order.2 envC "2025" 1 3 (by omega)⟩

/-- C5: in any run `attempt` starts at the fixed budget 3 and never increases
from one loop iteration to the next. -/
theorem c5_retry_monotone (env : PageEnv) (ts : String) :
    (scrape_data env ts 0).attempt = 3
    ∧ ∀ n, (scrape_data env ts (n + 1)).attempt ≤ (scrape_data env ts n).attempt :=
  ⟨rfl, fun n => by
    rw [scrape_data_succ]
    exact loopIter_attempt_le env (labelOf ts) (env.scrollHeight 0) (env.innerHeight 0) n
      (scrape_data env ts n)⟩

/-- C6: for a row whose TVL sub-element is absent or present-but-invisible
while the Name and Protocols sub-elements are present and visible,
`extract_data_from_row` returns the stripped Name and Protocols with TVL
`"N/A"`, and in particular never `None`. -/
theorem c6_missing_tvl_row (n p : String) (tvl_element : SubElem)
    (h : tvl_element = SubElem.absent ∨ ∃ s, tvl_element = SubElem.present false s) :
    extract_data_from_row (SubElem.present true n) (SubElem.present true p) tvl_element
        = some { Name := strip n, Protocols := strip p, TVL := "N/A" }
      ∧ extract_data_from_row (SubElem.present true n) (SubElem.present true p) tvl_element
        ≠ none := by
  have hNA : strip "N/A" = "N/A" := by decide
  rcases h with h | ⟨s, h⟩ <;> subst h <;>
    exact ⟨by simp [extract_data_from_row, readField, hNA],
      by simp [extract_data_from_row, readField]⟩

/-- C6 witness: a concrete row with visible Name and Protocols and an absent
TVL sub-element extracts to the trimmed fields with the `"N/A"` sentinel. -/
theorem c6_missing_tvl_row_witness :
    extract_data_from_row (SubElem.present true " Ethereum ") (SubElem.present true "1374 ")
        SubElem.absent
      = some { Name := "Ethereum", Protocols := "1374", TVL := "N/A" } := by
  have h := (c6_missing_tvl_row " Ethereum " "1374 " SubElem.absent (Or.inl rfl)).1
  rw [h]
  decide

/-- C7: when the existing output file holds a single JSON value that is not a
list, the persistence step coerces it to a one-element prior list and appends
the new batch, writing back a two-element list. -/
theorem c7_object_coerced (j scraped : Json) (h : ∀ xs, j ≠ Json.jarr xs) :
    main_all_results (FileRead.ok j) scraped = [j, scraped]
      ∧ (main_all_results (FileRead.ok j) scraped).length = 2 := by
  have hload : main_load_existing (FileRead.ok j) = [j] := by
    cases j with
    | jarr xs => exact absurd rfl (h xs)
    | null => rfl
    | jbool b => rfl
    | jnum n => rfl
    | jstr s => rfl
    | jobj kvs => rfl
  exact ⟨by rw [main_all_results, hload]; rfl, by rw [main_all_results, hload]; rfl⟩

/-- C7 witness: a one-object file plus a new batch rewrites as a two-element
list. -/
theorem c7_object_coerced_witness :
    main_all_results (FileRead.ok (Json.jobj [("a", Json.jnum 1)])) Json.null
        = [Json.jobj [("a", Json.jnum 1)], Json.null]
      ∧ (main_all_results (FileRead.ok (Json.jobj [("a", Json.jnum 1)])) Json.null).length
        = 2 :=
  c7_object_coerced (Json.jobj [("a", Json.jnum 1)]) Json.null
    (fun _ h => Json.noConfusion h)

/-- C8: after any number of loop iterations the run's result is a mapping
with exactly one key, the label `"Scraping at"` concatenated with the run
timestamp (the source concatenates without a separating space), whose value
is the object holding the single field `data_list`. -/
theorem c8_single_label (env : PageEnv) (ts : String) (n : Nat) :
    ∃ ds : List ExtractedRow,
      (scrape_data env ts n).scraped_data = [("Scraping at" ++ ts, ⟨ds⟩)] := by
  obtain ⟨ds, hsd, -, -, -⟩ := runInv_scrape_data env ts n
  exact ⟨ds, hsd⟩

/-- C9: evaluating the embedded `load_config` on a file that provides only
`proxy_settings.enabled` shows the nested defaults being dropped: because
`config = default_config` aliases and `config.update(loaded_config)` replaces
the whole `proxy_settings` value with the loaded object, the nested
`config["proxy_settings"].update(...)` updates that object with itself, and
the default `server`, `username` and `password` entries are lost. -/
theorem c9_partial_proxy_drops_defaults :
    load_config (some [("proxy_settings", Json.jobj [("enabled", Json.jbool true)])])
      = [("interval_minutes", Json.jnum 5),
         ("proxy_settings", Json.jobj [("enabled", Json.jbool true)])] := rfl

theorem scrape_data_pre (env : PageEnv) (ts : String) (t : Nat)
    (hpre : ∀ i, i < t → ¬ env.scrollY i + env.innerHeight 0 ≥ env.scrollHeight 0) :
    ∀ k, k ≤ t → (scrape_data env ts k).attempt = 3
      ∧ (scrape_data env ts k).done = false
      ∧ (scrape_data env ts k).scrolls = k := by
  intro k
  induction k with
  | zero => exact fun _ => ⟨rfl, rfl, rfl⟩
  | succ k ih =>
      intro hk
      obtain ⟨a1, a2, a3⟩ := ih (by omega)
      obtain ⟨b1, b2, b3⟩ := loopIter_no_bottom env (labelOf ts) (env.scrollHeight 0)
        (env.innerHeight 0) k (scrape_data env ts k) a2 (hpre k (by omega))
      rw [scrape_data_succ]
      exact ⟨b2.trans a1, b1, by rw [b3, a3]⟩

/-- C2: in a run where the bottom condition
`scrollY + window_height >= page_height` first holds at iteration `t` and
keeps holding (the rendered height stops growing), the loop is still running
through iteration `t + 3`, breaks exactly at the check of iteration `t + 3`
(so the state after `t + 4` iterations is terminal), and the total number of
scroll steps it ever issues is `t + 4`: exactly 4 scroll steps at or after
the first bottom detection — the one that produced that first detection plus
the 3 retries — never fewer (it is not done before) and never more (the
state, and with it the scroll count, is frozen from `t + 4` on). -/
theorem c2_exact_bottom_retries (env : PageEnv) (ts : String) (t : Nat)
    (hbot : ∀ i, t ≤ i → env.scrollY i + env.innerHeight 0 ≥ env.scrollHeight 0)
    (hpre : ∀ i, i < t → ¬ env.scrollY i + env.innerHeight 0 ≥ env.scrollHeight 0) :
    (∀ k, k ≤ t + 3 → (scrape_data env ts k).done = false)
    ∧ (scrape_data env ts (t + 4)).done = true
    ∧ (scrape_data env ts t).scrolls = t
    ∧ (scrape_data env ts (t + 4)).scrolls = t + 4
    ∧ ∀ m, t + 4 ≤ m → scrape_data env ts m = scrape_data env ts (t + 4) := by
  obtain ⟨a0, d0, s0⟩ := scrape_data_pre env ts t hpre t (le_refl t)
  obtain ⟨d1, a1, s1⟩ := loopIter_bottom_pos env (labelOf ts) (env.scrollHeight 0)
    (env.innerHeight 0) t (scrape_data env ts t) d0 (hbot t (le_refl t)) (by omega)
  rw [← scrape_data_succ] at d1 a1 s1
  have a1' : (scrape_data env ts (t + 1)).attempt = 2 := by omega
  have s1' : (scrape_data env ts (t + 1)).scrolls = t + 1 := by omega
  obtain ⟨d2, a2, s2⟩ := loopIter_bottom_pos env (labelOf ts) (env.scrollHeight 0)
    (env.innerHeight 0) (t + 1) (scrape_data env ts (t + 1)) d1
    (hbot (t + 1) (by omega)) (by omega)
  rw [← scrape_data_succ] at d2 a2 s2
  rw [show t + 1 + 1 = t + 2 from rfl] at d2 a2 s2
  have a2' : (scrape_data env ts (t + 2)).attempt = 1 := by omega
  have s2' : (scrape_data env ts (t + 2)).scrolls = t + 2 := by omega
  obtain ⟨d3, a3, s3⟩ := loopIter_bottom_pos env (labelOf ts) (env.scrollHeight 0)
    (env.innerHeight 0) (t + 2) (scrape_data env ts (t + 2)) d2
    (hbot (t + 2) (by omega)) (by omega)
  rw [← scrape_data_succ] at d3 a3 s3
  rw [show t + 2 + 1 = t + 3 from rfl] at d3 a3 s3
  have a3' : (scrape_data env ts (t + 3)).attempt = 0 := by omega
  have s3' : (scrape_data env ts (t + 3)).scrolls = t + 3 := by omega
  obtain ⟨d4, a4, s4⟩ := loopIter_bottom_zero env (labelOf ts) (env.scrollHeight 0)
    (env.innerHeight 0) (t + 3) (scrape_data env ts (t + 3)) d3
    (hbot (t + 3) (by omega)) (by omega)
  rw [← scrape_data_succ] at d4 a4 s4
  rw [show t + 3 + 1 = t + 4 from rfl] at d4 a4 s4
  refine ⟨?_, d4, s0, by omega, scrape_data_absorb env ts (t + 4) d4⟩
  intro k hk
  have hcase : k ≤ t ∨ k = t + 1 ∨ k = t + 2 ∨ k = t + 3 := by omega
  rcases hcase with h | h | h | h
  · exact (scrape_data_pre env ts t hpre k h).2.1
  · rw [h]; exact d1
  · rw [h]; exact d2
  · rw [h]; exact d3

/-- C2 witness: on the concrete page `envA` the bottom condition first holds
at iteration 1; the run is still live after 4 iterations, terminal after 5,
and has issued exactly 5 scrolls in total, i.e. 4 at or after the first
bottom detection. -/
theorem c2_exact_bottom_retries_witness :
    (scrape_data envA "2025-10-12 00:00:00" 4).done = false
    ∧ (scrape_data envA "2025-10-12 00:00:00" 5).done = true
    ∧ (scrape_data envA "2025-10-12 00:00:00" 5).scrolls = 5 := by
  have h := c2_exact_bottom_retries envA "2025-10-12 00:00:00" 1
    (by
      intro i hi
      have hne : i ≠ 0 := by omega
      have hy : envA.scrollY i = 900 := by simp [envA, hne]
      rw [hy]
      decide)
    (by
      intro i hi
      have he : i = 0 := by omega
      subst he
      decide)
  exact ⟨h.1 4 (by omega), h.2.1, h.2.2.2.1⟩

/-- C3 counterexample: on the concrete page `envB` the run reads as
at-bottom at iteration 0 and the real document height then grows by exactly
one viewport, yet the loop does not stop counting down — `attempt` falls to 2
and then, at the very next bottom detection, to 1, instead of being reset
to 3. -/
theorem c3_counterexample :
    envB.scrollY 0 + envB.innerHeight 0 ≥ envB.scrollHeight 0
    ∧ envB.scrollHeight 1 ≥ envB.scrollHeight 0 + envB.innerHeight 0
    ∧ (scrape_data envB "2025-10-12 00:00:00" 1).attempt = 2
    ∧ (scrape_data envB "2025-10-12 00:00:00" 2).attempt = 1 := by
  refine ⟨by decide, by decide, by decide, by decide⟩

/-- C3 amended: after a bottom reading the loop keeps comparing against the
document height captured before the loop, so growth of the real document
does not enter the check; when the (frozen) bottom condition fails at a
reading the loop keeps scanning with the retry budget exactly unchanged —
it is never reset to 3 — and every bottom detection of a live run with
budget left decrements the budget from its current value, so the next bottom
detection resumes from the decremented value. -/
theorem c3_no_reset (env : PageEnv) (ts : String) (i : Nat) :
    (¬ env.scrollY i + env.innerHeight 0 ≥ env.scrollHeight 0 →
        (scrape_data env ts i).done = false →
        (scrape_data env ts (i + 1)).done = false
          ∧ (scrape_data env ts (i + 1)).attempt = (scrape_data env ts i).attempt)
    ∧ (env.scrollY i + env.innerHeight 0 ≥ env.scrollHeight 0 →
        (scrape_data env ts i).done = false →
        0 < (scrape_data env ts i).attempt →
        (scrape_data env ts (i + 1)).attempt = (scrape_data env ts i).attempt - 1) := by
  constructor
  · intro hc hd
    obtain ⟨b1, b2, -⟩ := loopIter_no_bottom env (labelOf ts) (env.scrollHeight 0)
      (env.innerHeight 0) i (scrape_data env ts i) hd hc
    rw [← scrape_data_succ] at b1 b2
    exact ⟨b1, b2⟩
  · intro hc hd ha
    obtain ⟨-, b2, -⟩ := loopIter_bottom_pos env (labelOf ts) (env.scrollHeight 0)
      (env.innerHeight 0) i (scrape_data env ts i) hd hc ha
    rw [← scrape_data_succ] at b2
    exact b2

/-- C3 amended witness: on the concrete page `envE` the bottom detection of
iteration 0 decrements the budget from 3 to 2, and the non-bottom reading of
iteration 1 keeps scanning with the budget unchanged at 2 (not reset). -/
theorem c3_no_reset_witness :
    ((scrape_data envE "2025-10-12 00:00:00" 2).done = false
      ∧ (scrape_data envE "2025-10-12 00:00:00" 2).attempt
        = (scrape_data envE "2025-10-12 00:00:00" 1).attempt)
    ∧ (scrape_data envE "2025-10-12 00:00:00" 1).attempt
      = (scrape_data envE "2025-10-12 00:00:00" 0).attempt - 1 :=
  ⟨(c3_no_reset envE "2025-10-12 00:00:00" 1).1 (by decide) (by decide),
   (c3_no_reset envE "2025-10-12 00:00:00" 0).2 (by decide) (by decide) (by decide)⟩

theorem loopIter_congr (env env2 : PageEnv) (date : String) (ph wh : Int) (i : Nat)
    (st : RunState) (hr : env2.rows i = env.rows i) (hy : env2.scrollY i = env.scrollY i) :
    loopIter env2 date ph wh i st = loopIter env date ph wh i st := by
  simp only [loopIter, hr, hy]

/-- C10: the end-of-page comparison of the loop uses only the
`document.body.scrollHeight` and `window.innerHeight` read once before the
loop (time 0); two pages that agree on those time-0 readings and on the
per-iteration `scrollY` readings and rendered rows produce identical runs,
no matter how the height the document would report at later times differs —
the comparison threshold never changes during a run. -/
theorem c10_heights_read_once (env env2 : PageEnv) (ts : String)
    (hY : ∀ i, env2.scrollY i = env.scrollY i)
    (hR : ∀ i, env2.rows i = env.rows i)
    (hH : env2.scrollHeight 0 = env.scrollHeight 0)
    (hW : env2.innerHeight 0 = env.innerHeight 0) :
    ∀ n, scrape_data env2 ts n = scrape_data env ts n := by
  intro n
  induction n with
  | zero => rfl
  | succ n ih =>
      rw [scrape_data_succ, scrape_data_succ, ih, hH, hW]
      exact loopIter_congr env env2 (labelOf ts) (env.scrollHeight 0) (env.innerHeight 0) n
        (scrape_data env ts n) (hR n) (hY n)

/-- C10 witness: the pages `envC` and `envD` differ in the document height
reported after time 0 yet yield identical run states. -/
theorem c10_heights_read_once_witness :
    scrape_data envD "2025-10-12 00:00:00" 6 = scrape_data envC "2025-10-12 00:00:00" 6
    ∧ envD.scrollHeight 1 ≠ envC.scrollHeight 1 :=
  ⟨c10_heights_read_once envC envD "2025-10-12 00:00:00" (fun _ => rfl) (fun _ => rfl)
      rfl rfl 6,
   by decide⟩
